import Mathlib

set_option linter.unreachableTactic false
set_option linter.unnecessarySeqFocus false
set_option linter.unusedTactic false
set_option maxRecDepth 16000

/-!
Verification of the outlier-flag-and-impute pipeline of the
solar-challenge-week0 repository (src/scripts/data_preparation.py and
src/scripts/data_prep_clean.py).

A pandas DataFrame is modelled as a list of named columns of optional
rationals (`none` models a missing value / NaN), together with an optional
boolean `Outliers_Flag` column kept in a separate field (the code only ever
stores booleans there and reads it back as a row mask).  Missing values are
skipped by mean/std/median exactly as pandas does with `skipna=True`
defaults.  The test `|z| > 3` with `z = (v - mean)/std` is embedded without
square roots as `(v - mean)^2 > 9 * var` guarded by `var > 0`; when the
sample variance is zero or undefined (fewer than two valid values) the
pandas z-scores are NaN and every comparison with 3 is false, which the
guard reproduces.
-/

/-- A column of a DataFrame: one optional rational per row (`none` = NaN). -/
abbrev Col := List (Option ℚ)

/-- A DataFrame: named numeric columns plus the transient boolean
`Outliers_Flag` column, kept separately since the code treats it as a row
mask and not as data. -/
structure Table where
  cols : List (String × Col)
  flag : Option (List Bool)
deriving Repr, DecidableEq

/-- `col in df.columns` for a numeric column. -/
def hasCol (t : Table) (c : String) : Bool :=
  t.cols.any (fun p => p.1 == c)

/-- `df[c]`: the data of column `c`, when present. -/
def getCol (t : Table) (c : String) : Option Col :=
  (t.cols.find? (fun p => p.1 == c)).map Prod.snd

/-- `df[c]` with an empty default (only used when `c` is present). -/
def getColD (t : Table) (c : String) : Col :=
  (getCol t c).getD []

/-- `df[c] = d`: replace the data of column `c`, keeping names and order. -/
def setCol (t : Table) (c : String) (d : Col) : Table :=
  { t with cols := t.cols.map (fun p => if p.1 == c then (p.1, d) else p) }

/-- The number of rows of the frame (all columns have this length in a
well-formed frame; pandas keeps one shared index). -/
def nrows (t : Table) : ℕ :=
  match t.cols with
  | [] => (t.flag.map List.length).getD 0
  | p :: _ => p.2.length

/-- The valid (non-missing) values of a column, in row order. -/
def validVals (xs : Col) : List ℚ :=
  xs.filterMap id

/-- `df[c].mean()` (pandas skips NaN; NaN result for an empty column is
modelled as `none`). -/
def colMean (xs : Col) : Option ℚ :=
  let v := validVals xs
  if v.length = 0 then none else some (v.sum / v.length)

/-- `df[c].std()` squared: the sample variance (ddof = 1), `none` when pandas
would produce NaN (fewer than two valid values). -/
def colVar (xs : Col) : Option ℚ :=
  let v := validVals xs
  if v.length < 2 then none
  else some ((v.map (fun x => (x - v.sum / v.length) ^ 2)).sum / ((v.length : ℚ) - 1))

/-- Per-cell outlier test of one column: `|(v - mean)/std| > 3`, embedded as
`(v - mean)^2 > 9 * var`.  A NaN cell, a NaN mean/std, or a zero std gives a
NaN z-score in pandas, and `NaN > 3` is false. -/
def colFlags (xs : Col) : List Bool :=
  match colMean xs, colVar xs with
  | some m, some s2 =>
      if 0 < s2 then
        xs.map (fun x => match x with
          | some v => decide ((v - m) ^ 2 > 9 * s2)
          | none => false)
      else List.replicate xs.length false
  | _, _ => List.replicate xs.length false

/-- The hard-coded candidate columns of both variants
(`data_preparation.py` line 40, `data_prep_clean.py` line 60). -/
def REQUIRED_COLS : List String :=
  ["GHI", "DNI", "DHI", "ModA", "ModB", "WS", "WSgust"]

/-- `zscores.abs().gt(3).any(axis=1)`: a row is flagged iff some present
candidate column's z-score magnitude exceeds 3 at that row. -/
def rowFlags (t : Table) : List Bool :=
  let present := REQUIRED_COLS.filter (fun c => hasCol t c)
  (List.range (nrows t)).map
    (fun i => present.any (fun c => (colFlags (getColD t c)).getD i false))

/-- `calculate_zscore_and_flag_outliers` of data_preparation.py lines 39-57:
restrict to the present candidate columns, short-circuit to an all-false
flag when that selection is empty, otherwise flag rows by `|z| > 3`. -/
def calculate_zscore_and_flag_outliers (t : Table) : Table :=
  let cols_for_zscore := REQUIRED_COLS.filter (fun c => hasCol t c)
  if cols_for_zscore.isEmpty ∨ nrows t = 0 then
    { t with flag := some (List.replicate (nrows t) false) }
  else
    { t with flag := some (rowFlags t) }

namespace DatasetHandler

/-- `DatasetHandler.calculate_zscore_and_flag_outliers` of
data_prep_clean.py lines 44-75 (same computation, without the explicit
empty-selection branch; pandas gives an all-false `any(axis=1)` there). -/
def calculate_zscore_and_flag_outliers (t : Table) : Table :=
  { t with flag := some (rowFlags t) }

end DatasetHandler

/-- `Series.median(skipna=True)` on a list of valid values: sort, take the
middle element (odd length) or the mean of the two middle elements (even
length); NaN (`none`) on an empty list. -/
def median? (l : List ℚ) : Option ℚ :=
  let s := List.insertionSort (fun a b => a ≤ b) l
  if s.length = 0 then none
  else if s.length % 2 = 1 then some (s.getD (s.length / 2) 0)
  else some ((s.getD (s.length / 2 - 1) 0 + s.getD (s.length / 2) 0) / 2)

/-- `df.loc[~outlier_mask, col]` restricted to valid values: the non-missing
values of the cells whose row flag is false. -/
def nonFlaggedVals (fl : List Bool) (xs : Col) : List ℚ :=
  (List.zip xs fl).filterMap (fun p => if p.2 then none else p.1)

/-- `df.loc[outlier_mask, col] = median_val`: every cell whose row flag is
true receives `med` (which is NaN when the median was undefined). -/
def replaceFlagged (fl : List Bool) (xs : Col) (med : Option ℚ) : Col :=
  List.zipWith (fun x f => if f then med else x) xs fl

/-- `df[col].fillna(median_val)`: missing cells receive `med` (filling with
NaN leaves them missing). -/
def fillAll (xs : Col) (med : Option ℚ) : Col :=
  xs.map (fun x => x.orElse (fun _ => med))

/-- The shared loop shape of both cleaning steps:
`for col in ic: if col in df.columns: df[col] = g(df[col])`. -/
def updCols (g : Col → Col) (ic : List String) (t : Table) : Table :=
  ic.foldl (fun acc c => if hasCol acc c then setCol acc c (g (getColD acc c)) else acc) t

/-- Step 5a of data_preparation.py lines 64-70: replace the flagged cells of
each present impute column with `df[col].median()` — the median over ALL
rows of the column, flagged ones included. -/
def step1_module (fl : List Bool) (ic : List String) (t : Table) : Table :=
  updCols (fun xs => replaceFlagged fl xs (median? (validVals xs))) ic t

/-- The outlier-replacement step of data_prep_clean.py lines 99-106: replace
the flagged cells of each present impute column with
`df.loc[~outlier_mask, col].median(skipna=True)` — the median over the
non-flagged rows only. -/
def step1_class (fl : List Bool) (ic : List String) (t : Table) : Table :=
  updCols (fun xs => replaceFlagged fl xs (median? (nonFlaggedVals fl xs))) ic t

/-- The residual-imputation step shared by both variants
(data_preparation.py lines 72-76, data_prep_clean.py lines 108-113):
fill the missing cells of each present impute column with the median of the
column as it stands after outlier replacement. -/
def imputeStep (ic : List String) (t : Table) : Table :=
  updCols (fun xs => fillAll xs (median? (validVals xs))) ic t

/-- `clean_and_impute` of data_preparation.py lines 60-78: outlier
replacement (guarded by the flag column being present with at least one
true entry) followed by residual imputation. -/
def clean_and_impute (t : Table) (ic : List String) : Table :=
  let t1 := match t.flag with
    | some fl => if fl.any id then step1_module fl ic t else t
    | none => t
  imputeStep ic t1

namespace DatasetHandler

/-- `DatasetHandler.clean_and_impute` of data_prep_clean.py lines 77-117:
identical control flow, but the outlier-replacement median is taken over
the non-flagged rows only. -/
def clean_and_impute (t : Table) (ic : List String) : Table :=
  let t1 := match t.flag with
    | some fl => if fl.any id then step1_class fl ic t else t
    | none => t
  imputeStep ic t1

end DatasetHandler

/-!
Persistence (`save_cleaned_data`, data_preparation.py lines 81-95 and
data_prep_clean.py lines 119-144).  The operating system is a parameter: a
record of the observable behaviour of `os.path.exists`, `os.makedirs` and
`DataFrame.to_csv` at each path, with `Except.error` carrying the message of
a raised `OSError`.  The run of the function records what the caller sees
(a normal return or a propagated exception), what was printed, and the
table handed to `to_csv` when the write succeeded (reloading the CSV is
modelled as reading back exactly that table).
-/

/-- `df.drop(columns=['Outliers_Flag'])`: a copy without the flag column. -/
def dropFlag (df : Table) : Table :=
  { df with flag := none }

/-- The index of the last `'/'` of a path, as `str.rfind` computes it. -/
def rfindSlashIdx : List Char → Option ℕ
  | [] => none
  | c :: cs =>
      match rfindSlashIdx cs with
      | some k => some (k + 1)
      | none => if c == '/' then some 0 else none

/-- Strip the trailing slashes of a non-root head, as `os.path.dirname`
does. -/
def dropTrailingSlashes (cs : List Char) : List Char :=
  (cs.reverse.dropWhile (fun c => c == '/')).reverse

/-- `os.path.dirname` (posixpath): everything before the last `'/'`, with
trailing slashes stripped unless the head is only slashes; the empty string
when the path has no slash at all. -/
def dirname (p : String) : String :=
  let cs := p.toList
  match rfindSlashIdx cs with
  | none => ""
  | some j =>
      let head := cs.take (j + 1)
      if head.all (fun c => c == '/') then String.mk head
      else String.mk (dropTrailingSlashes head)

/-- The file-system environment the save functions run against. -/
structure FS where
  pathExists : String → Bool
  makedirs : String → Except String Unit
  writeCsv : String → Except String Unit

/-- What the caller of `save_cleaned_data` observes: a normal return or an
uncaught exception carrying its message. -/
inductive SaveOutcome where
  | raised : String → SaveOutcome
  | returned : SaveOutcome
deriving Repr, DecidableEq

/-- The observable effects of one `save_cleaned_data` call. -/
structure SaveRet where
  outcome : SaveOutcome
  printed : List String
  written : Option (String × Table)
deriving Repr, DecidableEq

/-- The `try` block of `save_cleaned_data`: drop the flag column on a local
copy, write, report success, and catch any write error with a printed
message instead of re-raising it. -/
def saveTry (fs : FS) (df : Table) (path : String) : SaveRet :=
  let df2 := if df.flag.isSome then dropFlag df else df
  match fs.writeCsv path with
  | Except.ok _ =>
      { outcome := SaveOutcome.returned,
        printed := ["Cleaned Data Saved successfully to: " ++ path],
        written := some (path, df2) }
  | Except.error e =>
      { outcome := SaveOutcome.returned,
        printed := ["!!! ERROR: Could not save file. " ++ e],
        written := none }

/-- The shared body of both `save_cleaned_data` variants: the directory
check and `os.makedirs` run OUTSIDE the `try` block, so their errors
propagate to the caller uncaught. -/
def saveCore (fs : FS) (df : Table) (path : String) : SaveRet :=
  let output_dir := dirname path
  if fs.pathExists output_dir then saveTry fs df path
  else
    match fs.makedirs output_dir with
    | Except.error e =>
        { outcome := SaveOutcome.raised e, printed := [], written := none }
    | Except.ok _ => saveTry fs df path

/-- `save_cleaned_data` of data_preparation.py lines 81-95. -/
def save_cleaned_data (fs : FS) (df : Table) (path : String) : SaveRet :=
  saveCore fs df path

namespace DatasetHandler

/-- `DatasetHandler.save_cleaned_data` of data_prep_clean.py lines 119-144:
reads `self.df`, guards against no data, and never assigns `self.df`; the
second component is the handler state after the call. -/
def save_cleaned_data (fs : FS) (st : Option Table) (path : String) :
    SaveRet × Option Table :=
  match st with
  | none =>
      ({ outcome := SaveOutcome.returned,
         printed := ["!!! ERROR: No data loaded."], written := none }, none)
  | some df => (saveCore fs df path, some df)

end DatasetHandler

/-!  General lemmas about the table model. -/

lemma getD_of_lt {α : Type} (xs : List α) (i : ℕ) (d : α) (h : i < xs.length) :
    xs.getD i d = xs[i] := by
  rw [List.getD_eq_getElem?_getD, List.getElem?_eq_getElem h]
  rfl

lemma getD_of_some {α : Type} {xs : List (Option α)} {i : ℕ} {v : α}
    (h : xs.getD i none = some v) : i < xs.length := by
  by_contra hge
  rw [List.getD_eq_default _ _ (Nat.le_of_not_lt hge)] at h
  exact Option.noConfusion h

lemma hasCol_eq_isSome (t : Table) (c : String) :
    hasCol t c = (getCol t c).isSome := by
  unfold hasCol getCol
  induction t.cols with
  | nil => rfl
  | cons p l ih =>
      by_cases h : p.1 == c
      · simp [List.any_cons, List.find?_cons, h]
      · simp only [List.any_cons, List.find?_cons, h] at ih ⊢
        simpa using ih

lemma fst_setCol_fun (c : String) (d : Col) (p : String × Col) :
    ((fun p : String × Col => if p.1 == c then (p.1, d) else p) p).1 = p.1 := by
  by_cases h : (p.1 == c) = true <;> simp [h]

lemma hasCol_setCol (t : Table) (c : String) (d : Col) (x : String) :
    hasCol (setCol t c d) x = hasCol t x := by
  unfold hasCol setCol
  rw [List.any_map]
  congr 1
  funext p
  simp only [Function.comp_apply, fst_setCol_fun]

lemma getCol_setCol_ne (t : Table) (c : String) (d : Col) (x : String)
    (hx : x ≠ c) : getCol (setCol t c d) x = getCol t x := by
  unfold getCol setCol
  rw [List.find?_map]
  have hpred : ((fun p : String × Col => p.1 == x) ∘
      (fun p : String × Col => if p.1 == c then (p.1, d) else p)) =
      (fun p : String × Col => p.1 == x) := by
    funext p
    simp only [Function.comp_apply, fst_setCol_fun]
  rw [hpred]
  cases hf : List.find? (fun p : String × Col => p.1 == x) t.cols with
  | none => rfl
  | some p0 =>
      have hx0' := @List.find?_some _ (fun p : String × Col => p.1 == x) p0 t.cols hf
      have hx0 : p0.1 = x := beq_iff_eq.mp hx0'
      have hne : p0.1 ≠ c := by
        rw [hx0]
        exact hx
      simp [hne]

lemma getCol_setCol_self (t : Table) (c : String) (d : Col) :
    getCol (setCol t c d) c = (getCol t c).map (fun _ => d) := by
  unfold getCol setCol
  rw [List.find?_map]
  have hpred : ((fun p : String × Col => p.1 == c) ∘
      (fun p : String × Col => if p.1 == c then (p.1, d) else p)) =
      (fun p : String × Col => p.1 == c) := by
    funext p
    simp only [Function.comp_apply, fst_setCol_fun]
  rw [hpred]
  cases hf : List.find? (fun p : String × Col => p.1 == c) t.cols with
  | none => rfl
  | some p0 =>
      have hc0 := @List.find?_some _ (fun p : String × Col => p.1 == c) p0 t.cols hf
      have hc1 : p0.1 = c := beq_iff_eq.mp hc0
      simp [hc1]

lemma updCols_nil (g : Col → Col) (t : Table) : updCols g [] t = t := rfl

lemma updCols_cons (g : Col → Col) (c : String) (ic : List String) (t : Table) :
    updCols g (c :: ic) t =
      updCols g ic (if hasCol t c then setCol t c (g (getColD t c)) else t) := rfl

lemma getCol_updCols_notMem (g : Col → Col) (ic : List String) (t : Table)
    (col : String) (h : col ∉ ic) :
    getCol (updCols g ic t) col = getCol t col := by
  induction ic generalizing t with
  | nil => rfl
  | cons c rest ih =>
      have hne : col ≠ c := fun hc => h (hc ▸ List.mem_cons_self c rest)
      have hrest : col ∉ rest := fun hr => h (List.mem_cons_of_mem c hr)
      rw [updCols_cons]
      by_cases hc : hasCol t c = true
      · rw [if_pos hc, ih _ hrest, getCol_setCol_ne _ _ _ _ hne]
      · rw [if_neg hc, ih _ hrest]

lemma getCol_updCols_mem (g : Col → Col) (ic : List String) (t : Table)
    (col : String) (hnd : ic.Nodup) (h : col ∈ ic) :
    getCol (updCols g ic t) col = (getCol t col).map g := by
  induction ic generalizing t with
  | nil => cases h
  | cons c rest ih =>
      rw [updCols_cons]
      rcases List.nodup_cons.mp hnd with ⟨hcr, hndr⟩
      by_cases hcol : col = c
      · subst hcol
        by_cases hc : hasCol t col = true
        · rw [if_pos hc, getCol_updCols_notMem _ _ _ _ hcr, getCol_setCol_self]
          have hsome : (getCol t col).isSome := by rw [← hasCol_eq_isSome]; exact hc
          rcases Option.isSome_iff_exists.mp hsome with ⟨xs, hxs⟩
          rw [hxs]
          simp [getColD, hxs]
        · rw [if_neg hc, getCol_updCols_notMem _ _ _ _ hcr]
          have hnone : getCol t col = none := by
            rw [hasCol_eq_isSome] at hc
            exact Option.not_isSome_iff_eq_none.mp (fun hs => hc hs)
          rw [hnone]
          rfl
      · have hr : col ∈ rest := by
          rcases List.mem_cons.mp h with h1 | h2
          · exact absurd h1 hcol
          · exact h2
        by_cases hc : hasCol t c = true
        · rw [if_pos hc, ih _ hndr hr, getCol_setCol_ne _ _ _ _ hcol]
        · rw [if_neg hc, ih _ hndr hr]

lemma getCol_updCols (g : Col → Col) (ic : List String) (t : Table)
    (col : String) (xs : Col) (hnd : ic.Nodup) (h : col ∈ ic)
    (hget : getCol t col = some xs) :
    getCol (updCols g ic t) col = some (g xs) := by
  rw [getCol_updCols_mem g ic t col hnd h, hget]
  rfl

lemma flag_setCol (t : Table) (c : String) (d : Col) :
    (setCol t c d).flag = t.flag := rfl

lemma flag_updCols (g : Col → Col) (ic : List String) (t : Table) :
    (updCols g ic t).flag = t.flag := by
  induction ic generalizing t with
  | nil => rfl
  | cons c rest ih =>
      rw [updCols_cons]
      by_cases hc : hasCol t c = true
      · rw [if_pos hc, ih]
        rfl
      · rw [if_neg hc, ih]

lemma length_replaceFlagged (fl : List Bool) (xs : Col) (med : Option ℚ)
    (hlen : fl.length = xs.length) :
    (replaceFlagged fl xs med).length = xs.length := by
  unfold replaceFlagged
  rw [List.length_zipWith, hlen]
  exact Nat.min_self _

lemma getElem_replaceFlagged (fl : List Bool) (xs : Col) (med : Option ℚ)
    (i : ℕ) (h : i < (replaceFlagged fl xs med).length)
    (h1 : i < xs.length) (h2 : i < fl.length) :
    (replaceFlagged fl xs med)[i] = if fl[i] then med else xs[i] := by
  unfold replaceFlagged
  rw [List.getElem_zipWith]

lemma length_fillAll (xs : Col) (med : Option ℚ) :
    (fillAll xs med).length = xs.length := by
  unfold fillAll
  exact List.length_map xs _

lemma getElem_fillAll (xs : Col) (med : Option ℚ) (i : ℕ)
    (h : i < (fillAll xs med).length) (h1 : i < xs.length) :
    (fillAll xs med)[i] = (xs[i]).orElse (fun _ => med) := by
  unfold fillAll
  rw [List.getElem_map]

lemma fillAll_all_isSome (xs : Col) (v : ℚ) :
    (fillAll xs (some v)).all Option.isSome = true := by
  rw [List.all_eq_true]
  intro x hx
  unfold fillAll at hx
  rcases List.mem_map.mp hx with ⟨y, _, hy⟩
  cases y with
  | none => rw [← hy]; rfl
  | some w => rw [← hy]; rfl

lemma median?_isSome (l : List ℚ) (h : l ≠ []) : (median? l).isSome := by
  unfold median?
  have hlen : (List.insertionSort (fun a b => a ≤ b) l).length = l.length :=
    List.length_insertionSort _ l
  have hne : ¬ (List.insertionSort (fun a b => a ≤ b) l).length = 0 := by
    rw [hlen]
    exact fun h0 => h (List.length_eq_zero.mp h0)
  rw [if_neg hne]
  by_cases hodd : (List.insertionSort (fun a b => a ≤ b) l).length % 2 = 1
  · rw [if_pos hodd]; rfl
  · rw [if_neg hodd]; rfl

lemma median?_nil : median? [] = none := rfl

lemma median?_of_const (l : List ℚ) (v : ℚ) (hne : l ≠ [])
    (hconst : ∀ x ∈ l, x = v) : median? l = some v := by
  unfold median?
  have hsorted : ∀ x ∈ List.insertionSort (fun a b => a ≤ b) l, x = v := by
    intro x hx
    exact hconst x ((List.perm_insertionSort _ l).mem_iff.mp hx)
  have hlen : (List.insertionSort (fun a b => a ≤ b) l).length = l.length :=
    List.length_insertionSort _ l
  have hpos : 0 < (List.insertionSort (fun a b => a ≤ b) l).length := by
    rw [hlen]
    exact List.length_pos.mpr hne
  have hgd : ∀ i, i < (List.insertionSort (fun a b => a ≤ b) l).length →
      (List.insertionSort (fun a b => a ≤ b) l).getD i 0 = v := by
    intro i hi
    rw [getD_of_lt _ _ _ hi]
    exact hsorted _ (List.getElem_mem hi)
  have hne0 : ¬ (List.insertionSort (fun a b => a ≤ b) l).length = 0 :=
    Nat.pos_iff_ne_zero.mp hpos
  rw [if_neg hne0]
  by_cases hodd : (List.insertionSort (fun a b => a ≤ b) l).length % 2 = 1
  · rw [if_pos hodd, hgd _ (Nat.div_lt_self hpos (by norm_num))]
  · rw [if_neg hodd]
    have h2 : (List.insertionSort (fun a b => a ≤ b) l).length / 2 <
        (List.insertionSort (fun a b => a ≤ b) l).length :=
      Nat.div_lt_self hpos (by norm_num)
    rw [hgd _ h2, hgd _ (lt_of_le_of_lt (Nat.sub_le _ 1) h2)]
    ring_nf

lemma nonFlaggedVals_all_true (fl : List Bool) (xs : Col)
    (h : ∀ b ∈ fl, b = true) : nonFlaggedVals fl xs = [] := by
  unfold nonFlaggedVals
  rw [List.filterMap_eq_nil_iff]
  intro p hp
  have hb : p.2 = true := h p.2 (List.of_mem_zip hp).2
  rw [hb]
  simp

lemma replaceFlagged_all_true (fl : List Bool) (xs : Col) (med : Option ℚ)
    (hall : ∀ b ∈ fl, b = true) (hlen : fl.length = xs.length) :
    replaceFlagged fl xs med = List.replicate xs.length med := by
  rw [List.eq_replicate_iff]
  constructor
  · exact length_replaceFlagged fl xs med hlen
  · intro b hb
    unfold replaceFlagged at hb
    rcases List.mem_iff_getElem.mp hb with ⟨i, hilt, hig⟩
    have h1 : i < xs.length := by
      rw [List.length_zipWith] at hilt
      exact lt_of_lt_of_le hilt (Nat.min_le_left _ _)
    have h2 : i < fl.length := by
      rw [List.length_zipWith] at hilt
      exact lt_of_lt_of_le hilt (Nat.min_le_right _ _)
    rw [List.getElem_zipWith] at hig
    have hfi : fl[i] = true := hall _ (List.getElem_mem h2)
    rw [hfi] at hig
    simpa using hig.symm

lemma validVals_replicate_none (n : ℕ) :
    validVals (List.replicate n none) = [] := by
  unfold validVals
  rw [List.filterMap_eq_nil_iff]
  intro x hx
  rw [List.eq_of_mem_replicate hx]
  rfl

lemma fillAll_replicate_some (n : ℕ) (v : ℚ) (med : Option ℚ) :
    fillAll (List.replicate n (some v)) med = List.replicate n (some v) := by
  unfold fillAll
  rw [List.map_replicate]
  rfl

lemma fillAll_replicate_none_none (n : ℕ) :
    fillAll (List.replicate n none) none = List.replicate n none := by
  unfold fillAll
  rw [List.map_replicate]
  rfl

lemma validVals_ne_nil_of_mem (xs : Col) (v : ℚ) (h : some v ∈ xs) :
    validVals xs ≠ [] := by
  intro hcon
  have : v ∈ validVals xs := List.mem_filterMap.mpr ⟨some v, h, rfl⟩
  rw [hcon] at this
  cases this

lemma mem_replaceFlagged_of_any (fl : List Bool) (xs : Col) (med : Option ℚ)
    (hany : fl.any id = true) (hlen : fl.length = xs.length) :
    med ∈ replaceFlagged fl xs med := by
  rcases List.any_eq_true.mp hany with ⟨b, hb, hbt⟩
  have hbtrue : b = true := by simpa using hbt
  subst hbtrue
  rcases List.mem_iff_getElem.mp hb with ⟨i, hilt, hig⟩
  have h1 : i < xs.length := hlen ▸ hilt
  have hL : i < (replaceFlagged fl xs med).length := by
    rw [length_replaceFlagged fl xs med hlen]
    exact h1
  have : (replaceFlagged fl xs med)[i] = med := by
    rw [getElem_replaceFlagged fl xs med i hL h1 hilt, hig]
    simp
  have hmem := List.getElem_mem hL
  rw [this] at hmem
  exact hmem

lemma colFlags_length (xs : Col) : (colFlags xs).length = xs.length := by
  unfold colFlags
  split
  · split
    · rw [List.length_map]
    · rw [List.length_replicate]
  · rw [List.length_replicate]

lemma rowFlags_length (t : Table) : (rowFlags t).length = nrows t := by
  unfold rowFlags
  rw [List.length_map, List.length_range]

lemma rowFlags_getD_lt (t : Table) (i : ℕ) (h : i < nrows t) :
    (rowFlags t).getD i false =
      (REQUIRED_COLS.filter (fun c => hasCol t c)).any
        (fun c => (colFlags (getColD t c)).getD i false) := by
  unfold rowFlags
  have hlt : i < (List.map
      (fun i => (REQUIRED_COLS.filter (fun c => hasCol t c)).any
        (fun c => (colFlags (getColD t c)).getD i false)) (List.range (nrows t))).length := by
    rw [List.length_map, List.length_range]
    exact h
  rw [getD_of_lt _ _ _ hlt, List.getElem_map, List.getElem_range]

lemma rowFlags_getD_ge (t : Table) (i : ℕ) (h : nrows t ≤ i) :
    (rowFlags t).getD i false = false := by
  apply List.getD_eq_default
  rw [rowFlags_length]
  exact h

lemma calc_variants_eq (t : Table) :
    calculate_zscore_and_flag_outliers t =
      DatasetHandler.calculate_zscore_and_flag_outliers t := by
  unfold calculate_zscore_and_flag_outliers DatasetHandler.calculate_zscore_and_flag_outliers
  by_cases h : (REQUIRED_COLS.filter (fun c => hasCol t c)).isEmpty = true ∨ nrows t = 0
  · rw [if_pos h]
    have : List.replicate (nrows t) false = rowFlags t := by
      unfold rowFlags
      rcases h with h1 | h2
      · have hnil : REQUIRED_COLS.filter (fun c => hasCol t c) = [] :=
          List.isEmpty_iff.mp h1
        simp only [hnil]
        have : (fun i : ℕ => List.any [] fun c => (colFlags (getColD t c)).getD i false) =
            (fun _ : ℕ => false) := by
          funext i
          rfl
        rw [this, List.map_const', List.length_range]
      · rw [h2]
        rfl
    rw [this]
  · rw [if_neg h]

lemma sum_div_length_of_const (l : List ℚ) (a : ℚ) (hne : l ≠ [])
    (hconst : ∀ x ∈ l, x = a) : l.sum / (l.length : ℚ) = a := by
  have hsum : l.sum = (l.length : ℚ) * a := by
    rw [List.sum_eq_card_nsmul l a hconst, nsmul_eq_mul]
  rw [hsum]
  have hlen : (l.length : ℚ) ≠ 0 := by
    have := List.length_pos.mpr hne
    exact_mod_cast Nat.pos_iff_ne_zero.mp this
  field_simp

lemma colFlags_of_const (xs : Col) (a : ℚ)
    (hconst : ∀ v ∈ validVals xs, v = a) :
    colFlags xs = List.replicate xs.length false := by
  unfold colFlags
  cases hm : colMean xs with
  | none => rfl
  | some m =>
      cases hv : colVar xs with
      | none => rfl
      | some s2 =>
          simp only []
          have hne : validVals xs ≠ [] := by
            unfold colMean at hm
            intro hcon
            rw [hcon] at hm
            simp at hm
          have hma : m = a := by
            unfold colMean at hm
            have hlen0 : ¬ (validVals xs).length = 0 :=
              fun h0 => hne (List.length_eq_zero.mp h0)
            rw [if_neg hlen0] at hm
            have := Option.some_injective _ hm.symm ▸ hm
            have hm2 : (validVals xs).sum / ((validVals xs).length : ℚ) = m := by
              injection hm
            rw [← hm2]
            exact sum_div_length_of_const _ a hne hconst
          have hs2 : s2 = 0 := by
            unfold colVar at hv
            by_cases h2 : (validVals xs).length < 2
            · rw [if_pos h2] at hv
              exact Option.noConfusion hv
            · rw [if_neg h2] at hv
              have hterm : ((validVals xs).map
                  (fun x => (x - (validVals xs).sum / ((validVals xs).length : ℚ)) ^ 2)).sum = 0 := by
                have : ∀ y ∈ (validVals xs).map
                    (fun x => (x - (validVals xs).sum / ((validVals xs).length : ℚ)) ^ 2), y = 0 := by
                  intro y hy
                  rcases List.mem_map.mp hy with ⟨x, hx, hxy⟩
                  rw [← hxy, hconst x hx, sum_div_length_of_const _ a hne hconst]
                  ring
                rw [List.sum_eq_card_nsmul _ 0 this]
                simp
              have hv2 : ((0 : ℚ) / (((validVals xs).length : ℚ) - 1)) = s2 := by
                rw [← hterm]
                injection hv
              rw [← hv2]
              rw [zero_div]
          rw [hs2]
          simp

lemma any_filter_ne (l : List String) (p : String → Bool) (c : String)
    (hp : p c = false) :
    l.any p = (l.filter (fun x => !(x == c))).any p := by
  induction l with
  | nil => rfl
  | cons x rest ih =>
      by_cases hx : x = c
      · subst hx
        rw [List.any_cons, hp, Bool.false_or]
        have : (!(x == x)) = false := by simp
        rw [List.filter_cons, this]
        exact ih
      · have : (!(x == c)) = true := by simp [hx]
        rw [List.any_cons, List.filter_cons, this]
        rw [if_pos rfl, List.any_cons, ih]

lemma getCol_calc (t : Table) (col : String) :
    getCol (calculate_zscore_and_flag_outliers t) col = getCol t col := by
  simp only [calculate_zscore_and_flag_outliers]
  split <;> rfl

lemma clean_module_eq_step (t : Table) (ic : List String) (fl : List Bool)
    (hfl : t.flag = some fl) (hany : fl.any id = true) :
    clean_and_impute t ic = imputeStep ic (step1_module fl ic t) := by
  unfold clean_and_impute
  simp only [hfl, hany, if_true]

lemma clean_module_eq_skip (t : Table) (ic : List String)
    (h : t.flag = none ∨ ∃ fl, t.flag = some fl ∧ fl.any id = false) :
    clean_and_impute t ic = imputeStep ic t := by
  unfold clean_and_impute
  rcases h with h1 | ⟨fl, h2, h3⟩
  · simp only [h1]
  · simp only [h2, h3]
    rfl

lemma clean_class_eq_step (t : Table) (ic : List String) (fl : List Bool)
    (hfl : t.flag = some fl) (hany : fl.any id = true) :
    DatasetHandler.clean_and_impute t ic = imputeStep ic (step1_class fl ic t) := by
  unfold DatasetHandler.clean_and_impute
  simp only [hfl, hany, if_true]

lemma clean_class_eq_skip (t : Table) (ic : List String)
    (h : t.flag = none ∨ ∃ fl, t.flag = some fl ∧ fl.any id = false) :
    DatasetHandler.clean_and_impute t ic = imputeStep ic t := by
  unfold DatasetHandler.clean_and_impute
  rcases h with h1 | ⟨fl, h2, h3⟩
  · simp only [h1]
  · simp only [h2, h3]
    rfl

lemma replaceFlagged_getD_flagged (fl : List Bool) (xs : Col) (med : Option ℚ)
    (i : ℕ) (hlen : fl.length = xs.length) (hilt : i < xs.length)
    (hi : fl.getD i false = true) :
    (replaceFlagged fl xs med).getD i none = med := by
  have hfl : i < fl.length := hlen ▸ hilt
  have hL : i < (replaceFlagged fl xs med).length := by
    rw [length_replaceFlagged fl xs med hlen]
    exact hilt
  rw [getD_of_lt _ _ _ hL, getElem_replaceFlagged fl xs med i hL hilt hfl]
  rw [getD_of_lt _ _ _ hfl] at hi
  rw [hi]
  rfl

lemma replaceFlagged_getD_unflagged (fl : List Bool) (xs : Col) (med : Option ℚ)
    (i : ℕ) (hlen : fl.length = xs.length) (hilt : i < xs.length)
    (hi : fl.getD i false = false) :
    (replaceFlagged fl xs med).getD i none = xs.getD i none := by
  have hfl : i < fl.length := hlen ▸ hilt
  have hL : i < (replaceFlagged fl xs med).length := by
    rw [length_replaceFlagged fl xs med hlen]
    exact hilt
  rw [getD_of_lt _ _ _ hL, getElem_replaceFlagged fl xs med i hL hilt hfl]
  rw [getD_of_lt _ _ _ hfl] at hi
  rw [hi, getD_of_lt _ _ _ hilt]
  rfl

lemma fillAll_getD (xs : Col) (med : Option ℚ) (i : ℕ) (hilt : i < xs.length) :
    (fillAll xs med).getD i none = (xs.getD i none).orElse (fun _ => med) := by
  have hL : i < (fillAll xs med).length := by
    rw [length_fillAll]
    exact hilt
  rw [getD_of_lt _ _ _ hL, getElem_fillAll xs med i hL hilt, getD_of_lt _ _ _ hilt]

/-! ## Claims -/

/-- A table with one candidate column and a flag marking exactly the last
row, on which the two `clean_and_impute` variants disagree: the non-flagged
median of `[1, 2]` is `3/2`, while the all-rows median of `[1, 2, 100]`
is `2`. -/
def TC1 : Table :=
  { cols := [("GHI", [some 1, some 2, some 100])], flag := some [false, false, true] }

/-- C1, counterexample: the module-level `clean_and_impute` writes the
all-rows median `2` into the flagged cell, not the non-flagged-rows median
`3/2` the claim asserts for both variants. -/
theorem C1_counterexample :
    getCol (clean_and_impute TC1 ["GHI"]) "GHI" = some [some 1, some 2, some 2]
    ∧ median? (nonFlaggedVals [false, false, true] [some 1, some 2, some 100]) =
        some (3 / 2)
    ∧ getCol (clean_and_impute TC1 ["GHI"]) "GHI" ≠
        some [some 1, some 2, some (3 / 2)] := by
  have h1 : getCol (clean_and_impute TC1 ["GHI"]) "GHI" =
      some [some 1, some 2, some 2] := by
    simp [clean_and_impute, TC1, step1_module, imputeStep, updCols, setCol, hasCol,
      getColD, getCol, replaceFlagged, fillAll, median?, nonFlaggedVals, validVals,
      List.insertionSort, List.orderedInsert] <;> norm_num
  have h2 : median? (nonFlaggedVals [false, false, true] [some 1, some 2, some 100]) =
      some (3 / 2) := by
    simp [median?, nonFlaggedVals, List.insertionSort, List.orderedInsert] <;> norm_num
  refine ⟨h1, h2, ?_⟩
  rw [h1]
  intro hcon
  simp only [Option.some.injEq, List.cons.injEq, and_true, true_and] at hcon
  norm_num at hcon

/-- C1, amended: with a flag column holding at least one true entry, the
outlier-replacement step of `DatasetHandler.clean_and_impute` assigns to
each flagged cell of each present impute column the median of that column
over the non-flagged rows (skipping missing values), while the module-level
`clean_and_impute` assigns the median of the column over ALL rows; in both
variants the residual-imputation step then runs on the replaced table. -/
theorem C1_thm (t : Table) (ic : List String) (col : String)
    (xs : Col) (fl : List Bool) (i : ℕ)
    (hfl : t.flag = some fl) (hany : fl.any id = true)
    (hnd : ic.Nodup) (hmem : col ∈ ic)
    (hget : getCol t col = some xs)
    (hlen : fl.length = xs.length)
    (hi : fl.getD i false = true) (hilt : i < xs.length) :
    DatasetHandler.clean_and_impute t ic = imputeStep ic (step1_class fl ic t)
    ∧ clean_and_impute t ic = imputeStep ic (step1_module fl ic t)
    ∧ (getColD (step1_class fl ic t) col).getD i none =
        median? (nonFlaggedVals fl xs)
    ∧ (getColD (step1_module fl ic t) col).getD i none =
        median? (validVals xs) := by
  refine ⟨clean_class_eq_step t ic fl hfl hany,
    clean_module_eq_step t ic fl hfl hany, ?_, ?_⟩
  · have hcol := getCol_updCols
      (fun ys => replaceFlagged fl ys (median? (nonFlaggedVals fl ys)))
      ic t col xs hnd hmem hget
    unfold step1_class
    rw [getColD, hcol, Option.getD_some]
    exact replaceFlagged_getD_flagged fl xs _ i hlen hilt hi
  · have hcol := getCol_updCols
      (fun ys => replaceFlagged fl ys (median? (validVals ys)))
      ic t col xs hnd hmem hget
    unfold step1_module
    rw [getColD, hcol, Option.getD_some]
    exact replaceFlagged_getD_flagged fl xs _ i hlen hilt hi

/-- C1, witness: the amended statement instantiated at the concrete
table `TC1`, its single impute column and its flagged row. -/
theorem C1_witness :
    DatasetHandler.clean_and_impute TC1 ["GHI"] =
        imputeStep ["GHI"] (step1_class [false, false, true] ["GHI"] TC1)
    ∧ clean_and_impute TC1 ["GHI"] =
        imputeStep ["GHI"] (step1_module [false, false, true] ["GHI"] TC1)
    ∧ (getColD (step1_class [false, false, true] ["GHI"] TC1) "GHI").getD 2 none =
        median? (nonFlaggedVals [false, false, true] [some 1, some 2, some 100])
    ∧ (getColD (step1_module [false, false, true] ["GHI"] TC1) "GHI").getD 2 none =
        median? (validVals [some 1, some 2, some 100]) :=
  C1_thm TC1 ["GHI"] "GHI" [some 1, some 2, some 100] [false, false, true] 2
    rfl (by decide) (by decide) (by decide) rfl (by decide) (by decide) (by decide)

/-- A table in which every row is flagged: the non-flagged-rows median is
undefined, and the class variant writes it (NaN) into every flagged cell. -/
def TC2 : Table :=
  { cols := [("GHI", [some 1, some 2])], flag := some [true, true] }

/-- C2, counterexample: with every row flagged,
`DatasetHandler.clean_and_impute` does not skip outlier replacement — it
assigns the undefined median, turning both (originally valid) cells of the
impute column into missing values. -/
theorem C2_counterexample :
    getCol TC2 "GHI" = some [some 1, some 2]
    ∧ getCol (DatasetHandler.clean_and_impute TC2 ["GHI"]) "GHI" = some [none, none]
    ∧ getCol (DatasetHandler.clean_and_impute TC2 ["GHI"]) "GHI" ≠ getCol TC2 "GHI" := by
  have h1 : getCol TC2 "GHI" = some [some 1, some 2] := rfl
  have h2 : getCol (DatasetHandler.clean_and_impute TC2 ["GHI"]) "GHI" =
      some [none, none] := by
    simp [DatasetHandler.clean_and_impute, TC2, step1_class, imputeStep, updCols,
      setCol, hasCol, getColD, getCol, replaceFlagged, fillAll, median?,
      nonFlaggedVals, validVals, List.insertionSort, List.orderedInsert] <;> norm_num
  refine ⟨h1, h2, ?_⟩
  rw [h1, h2]
  intro hcon
  simp at hcon

/-- C2, amended: when every row is flagged, neither variant skips outlier
replacement.  `DatasetHandler.clean_and_impute` assigns the undefined
(missing) median to every cell of each present impute column, and the
module-level `clean_and_impute` replaces every cell with the median of the
whole column. -/
theorem C2_thm (t : Table) (ic : List String) (col : String)
    (xs : Col) (fl : List Bool)
    (hfl : t.flag = some fl) (hne : fl ≠ []) (hall : ∀ b ∈ fl, b = true)
    (hnd : ic.Nodup) (hmem : col ∈ ic) (hget : getCol t col = some xs)
    (hlen : fl.length = xs.length) :
    getCol (DatasetHandler.clean_and_impute t ic) col =
        some (List.replicate xs.length none)
    ∧ getCol (clean_and_impute t ic) col =
        some (List.replicate xs.length (median? (validVals xs))) := by
  have hany : fl.any id = true := by
    cases fl with
    | nil => exact absurd rfl hne
    | cons b rest =>
        rw [List.any_cons]
        rw [hall b (List.mem_cons_self b rest)]
        rfl
  constructor
  · rw [clean_class_eq_step t ic fl hfl hany]
    have hstep : getCol (step1_class fl ic t) col =
        some (List.replicate xs.length none) := by
      have hcol := getCol_updCols
        (fun ys => replaceFlagged fl ys (median? (nonFlaggedVals fl ys)))
        ic t col xs hnd hmem hget
      unfold step1_class
      rw [hcol]
      dsimp only
      rw [nonFlaggedVals_all_true fl xs hall, median?_nil,
        replaceFlagged_all_true fl xs none hall hlen]
    have himp := getCol_updCols
      (fun ys => fillAll ys (median? (validVals ys)))
      ic (step1_class fl ic t) col (List.replicate xs.length none) hnd hmem hstep
    unfold imputeStep
    rw [himp]
    dsimp only
    rw [validVals_replicate_none, median?_nil, fillAll_replicate_none_none]
  · rw [clean_module_eq_step t ic fl hfl hany]
    have hstep : getCol (step1_module fl ic t) col =
        some (List.replicate xs.length (median? (validVals xs))) := by
      have hcol := getCol_updCols
        (fun ys => replaceFlagged fl ys (median? (validVals ys)))
        ic t col xs hnd hmem hget
      unfold step1_module
      rw [hcol]
      dsimp only
      rw [replaceFlagged_all_true fl xs _ hall hlen]
    have himp := getCol_updCols
      (fun ys => fillAll ys (median? (validVals ys)))
      ic (step1_module fl ic t) col
      (List.replicate xs.length (median? (validVals xs))) hnd hmem hstep
    unfold imputeStep
    rw [himp]
    dsimp only
    cases hm : median? (validVals xs) with
    | none => rw [validVals_replicate_none, median?_nil, fillAll_replicate_none_none]
    | some v => rw [fillAll_replicate_some]

/-- C2, witness: the amended statement instantiated at the all-flagged
table `TC2`. -/
theorem C2_witness :
    getCol (DatasetHandler.clean_and_impute TC2 ["GHI"]) "GHI" =
        some (List.replicate 2 none)
    ∧ getCol (clean_and_impute TC2 ["GHI"]) "GHI" =
        some (List.replicate 2 (median? (validVals [some 1, some 2]))) :=
  C2_thm TC2 ["GHI"] "GHI" [some 1, some 2] [true, true]
    rfl (by decide) (by decide) (by decide) (by decide) rfl (by decide)

/-- A table whose impute column has a valid value only in a flagged row:
the class variant replaces that value with the undefined non-flagged median
and then cannot impute, leaving the whole column missing. -/
def TC3 : Table :=
  { cols := [("GHI", [some 5, none])], flag := some [true, false] }

/-- C3, counterexample: `DatasetHandler.clean_and_impute` applied to `TC3`
leaves (indeed introduces) missing values in an impute column that
originally had a valid value. -/
theorem C3_counterexample :
    validVals [some 5, none] ≠ []
    ∧ getCol TC3 "GHI" = some [some 5, none]
    ∧ getCol (DatasetHandler.clean_and_impute TC3 ["GHI"]) "GHI" = some [none, none] := by
  refine ⟨by decide, rfl, ?_⟩
  simp [DatasetHandler.clean_and_impute, TC3, step1_class, imputeStep, updCols,
    setCol, hasCol, getColD, getCol, replaceFlagged, fillAll, median?,
    nonFlaggedVals, validVals, List.insertionSort, List.orderedInsert] <;> norm_num

/-- C3, amended: the no-missing-values-after-cleaning guarantee holds for
the module-level `clean_and_impute`: every impute column present in the
table that had at least one valid value contains no missing values after
cleaning.  (The `DatasetHandler` variant violates it, see the
counterexample.) -/
theorem C3_thm (t : Table) (ic : List String) (col : String) (xs : Col)
    (hnd : ic.Nodup) (hmem : col ∈ ic) (hget : getCol t col = some xs)
    (hvalid : validVals xs ≠ [])
    (hlen : ∀ fl, t.flag = some fl → fl.length = xs.length) :
    (getColD (clean_and_impute t ic) col).all Option.isSome = true := by
  rcases Option.isSome_iff_exists.mp (median?_isSome _ hvalid) with ⟨v, hv⟩
  have himpute : ∀ u : Table, ∀ ys : Col, getCol u col = some ys →
      validVals ys ≠ [] →
      (getColD (imputeStep ic u) col).all Option.isSome = true := by
    intro u ys hys hysvalid
    rcases Option.isSome_iff_exists.mp (median?_isSome _ hysvalid) with ⟨w, hw⟩
    have himp := getCol_updCols
      (fun zs => fillAll zs (median? (validVals zs))) ic u col ys hnd hmem hys
    unfold imputeStep
    unfold getColD
    rw [himp]
    dsimp only
    rw [hw, Option.getD_some]
    exact fillAll_all_isSome ys w
  cases hfl : t.flag with
  | none =>
      rw [clean_module_eq_skip t ic (Or.inl hfl)]
      exact himpute t xs hget hvalid
  | some fl =>
      by_cases hany : fl.any id = true
      · rw [clean_module_eq_step t ic fl hfl hany]
        have hstep := getCol_updCols
          (fun ys => replaceFlagged fl ys (median? (validVals ys)))
          ic t col xs hnd hmem hget
        have hstep2 : getCol (step1_module fl ic t) col =
            some (replaceFlagged fl xs (some v)) := by
          unfold step1_module
          rw [hstep]
          dsimp only
          rw [hv]
        have hlenfl : fl.length = xs.length := hlen fl hfl
        have hmem2 : (some v : Option ℚ) ∈ replaceFlagged fl xs (some v) := by
          have := mem_replaceFlagged_of_any fl xs (some v) hany hlenfl
          exact this
        exact himpute (step1_module fl ic t) (replaceFlagged fl xs (some v)) hstep2
          (validVals_ne_nil_of_mem _ v hmem2)
      · have hany2 : fl.any id = false := by
          cases h2 : fl.any id with
          | false => rfl
          | true => exact absurd h2 hany
        rw [clean_module_eq_skip t ic (Or.inr ⟨fl, hfl, hany2⟩)]
        exact himpute t xs hget hvalid

/-- C3, witness: the amended statement instantiated at `TC3`, whose single
impute column has a valid original value; the module-level clean leaves it
with no missing values. -/
theorem C3_witness :
    (getColD (clean_and_impute TC3 ["GHI"]) "GHI").all Option.isSome = true :=
  C3_thm TC3 ["GHI"] "GHI" [some 5, none] (by decide) (by decide) rfl (by decide)
    (fun fl h => by
      injection h with h2
      rw [← h2]
      rfl)

/-- Eleven rows: nine zeros, a one, and an extreme value.  Only the extreme
row has `|z| > 3` on the first pass. -/
def LD0 : Col :=
  [some 0, some 0, some 0, some 0, some 0, some 0, some 0, some 0, some 0,
   some 1, some 1000]

/-- First-pass flags of `LD0`: only the extreme row. -/
def FD0 : List Bool :=
  [false, false, false, false, false, false, false, false, false, false, true]

/-- `LD0` after one flag-and-clean pass: the extreme value became the
median 0. -/
def LD1 : Col :=
  [some 0, some 0, some 0, some 0, some 0, some 0, some 0, some 0, some 0,
   some 1, some 0]

/-- Second-pass flags of `LD1`: the previously unflagged value 1 now has
`|z| > 3` under the tightened standard deviation. -/
def FD1 : List Bool :=
  [false, false, false, false, false, false, false, false, false, true, false]

/-- `LD1` after the second clean: the 1 was replaced by the median 0. -/
def LD2 : Col :=
  [some 0, some 0, some 0, some 0, some 0, some 0, some 0, some 0, some 0,
   some 0, some 0]

/-- The table the C4 counterexample starts from. -/
def TD0 : Table := { cols := [("GHI", LD0)], flag := none }

/-- Twenty-one rows: eighteen zeros, two ones, one extreme value.  The
first pass flags only the extreme row; after cleaning, BOTH ones are
flagged, so the second pass flags strictly more rows. -/
def LB0 : Col :=
  [some 0, some 0, some 0, some 0, some 0, some 0, some 0, some 0, some 0,
   some 0, some 0, some 0, some 0, some 0, some 0, some 0, some 0, some 0,
   some 1, some 1, some 1000]

/-- First-pass flags of `LB0`. -/
def FB0 : List Bool :=
  [false, false, false, false, false, false, false, false, false, false,
   false, false, false, false, false, false, false, false, false, false,
   true]

/-- `LB0` after one clean pass. -/
def LB1 : Col :=
  [some 0, some 0, some 0, some 0, some 0, some 0, some 0, some 0, some 0,
   some 0, some 0, some 0, some 0, some 0, some 0, some 0, some 0, some 0,
   some 1, some 1, some 0]

/-- Second-pass flags of `LB1`: both ones exceed the threshold now. -/
def FB1 : List Bool :=
  [false, false, false, false, false, false, false, false, false, false,
   false, false, false, false, false, false, false, false, true, true,
   false]

/-- The 21-row table of the C4 counterexample. -/
def TB0 : Table := { cols := [("GHI", LB0)], flag := none }

lemma c4_stageA : calculate_zscore_and_flag_outliers TD0 =
    { cols := [("GHI", LD0)], flag := some FD0 } := by
  simp [calculate_zscore_and_flag_outliers, TD0, LD0, FD0, rowFlags, nrows,
    REQUIRED_COLS, hasCol, getColD, getCol, colFlags, colMean, colVar, validVals,
    List.range, List.range.loop] <;> norm_num

lemma c4_stageB : clean_and_impute { cols := [("GHI", LD0)], flag := some FD0 }
    ["GHI"] = { cols := [("GHI", LD1)], flag := some FD0 } := by
  simp [clean_and_impute, LD0, LD1, FD0, step1_module, imputeStep, updCols, setCol,
    hasCol, getColD, getCol, replaceFlagged, fillAll, median?, nonFlaggedVals,
    validVals, List.insertionSort, List.orderedInsert] <;> norm_num

lemma c4_stageB' : DatasetHandler.clean_and_impute
    { cols := [("GHI", LD0)], flag := some FD0 } ["GHI"] =
    { cols := [("GHI", LD1)], flag := some FD0 } := by
  simp [DatasetHandler.clean_and_impute, LD0, LD1, FD0, step1_class, imputeStep,
    updCols, setCol, hasCol, getColD, getCol, replaceFlagged, fillAll, median?,
    nonFlaggedVals, validVals, List.insertionSort, List.orderedInsert] <;> norm_num

lemma c4_stageC : calculate_zscore_and_flag_outliers
    { cols := [("GHI", LD1)], flag := some FD0 } =
    { cols := [("GHI", LD1)], flag := some FD1 } := by
  simp [calculate_zscore_and_flag_outliers, LD1, FD0, FD1, rowFlags, nrows,
    REQUIRED_COLS, hasCol, getColD, getCol, colFlags, colMean, colVar, validVals,
    List.range, List.range.loop] <;> norm_num

lemma c4_stageD : clean_and_impute { cols := [("GHI", LD1)], flag := some FD1 }
    ["GHI"] = { cols := [("GHI", LD2)], flag := some FD1 } := by
  simp [clean_and_impute, LD1, LD2, FD1, step1_module, imputeStep, updCols, setCol,
    hasCol, getColD, getCol, replaceFlagged, fillAll, median?, nonFlaggedVals,
    validVals, List.insertionSort, List.orderedInsert] <;> norm_num

lemma c4_stageE : calculate_zscore_and_flag_outliers TB0 =
    { cols := [("GHI", LB0)], flag := some FB0 } := by
  simp [calculate_zscore_and_flag_outliers, TB0, LB0, FB0, rowFlags, nrows,
    REQUIRED_COLS, hasCol, getColD, getCol, colFlags, colMean, colVar, validVals,
    List.range, List.range.loop] <;> norm_num

lemma c4_stageF : clean_and_impute { cols := [("GHI", LB0)], flag := some FB0 }
    ["GHI"] = { cols := [("GHI", LB1)], flag := some FB0 } := by
  simp [clean_and_impute, LB0, LB1, FB0, step1_module, imputeStep, updCols, setCol,
    hasCol, getColD, getCol, replaceFlagged, fillAll, median?, nonFlaggedVals,
    validVals, List.insertionSort, List.orderedInsert] <;> norm_num

lemma c4_stageG : calculate_zscore_and_flag_outliers
    { cols := [("GHI", LB1)], flag := some FB0 } =
    { cols := [("GHI", LB1)], flag := some FB1 } := by
  simp [calculate_zscore_and_flag_outliers, LB1, FB0, FB1, rowFlags, nrows,
    REQUIRED_COLS, hasCol, getColD, getCol, colFlags, colMean, colVar, validVals,
    List.range, List.range.loop] <;> norm_num

/-- C4, counterexample: re-running the flag-then-clean pipeline on the
already-cleaned `TD0` flags the previously clean value 1 and changes it to
0 (so the second pass does change cell values, in both variants), and on
`TB0` the recomputed flag marks 2 rows where the first pass marked only 1
(so the second pass can flag strictly MORE rows, not fewer or equal). -/
theorem C4_counterexample :
    ((calculate_zscore_and_flag_outliers TD0).flag.getD []).count true = 1
    ∧ getCol (clean_and_impute (calculate_zscore_and_flag_outliers TD0) ["GHI"])
        "GHI" = some LD1
    ∧ getCol (DatasetHandler.clean_and_impute
        (calculate_zscore_and_flag_outliers TD0) ["GHI"]) "GHI" = some LD1
    ∧ getCol (clean_and_impute (calculate_zscore_and_flag_outliers
        (clean_and_impute (calculate_zscore_and_flag_outliers TD0) ["GHI"]))
        ["GHI"]) "GHI" = some LD2
    ∧ LD2 ≠ LD1
    ∧ ((calculate_zscore_and_flag_outliers TB0).flag.getD []).count true = 1
    ∧ ((calculate_zscore_and_flag_outliers
        (clean_and_impute (calculate_zscore_and_flag_outliers TB0) ["GHI"])).flag.getD
        []).count true = 2 := by
  refine ⟨?_, ?_, ?_, ?_, ?_, ?_, ?_⟩
  · rw [c4_stageA]
    decide
  · rw [c4_stageA, c4_stageB]
    rfl
  · rw [c4_stageA, c4_stageB']
    rfl
  · rw [c4_stageA, c4_stageB, c4_stageC, c4_stageD]
    rfl
  · intro hcon
    have h9 : LD2.getD 9 none = LD1.getD 9 none := by rw [hcon]
    simp [LD1, LD2] at h9
  · rw [c4_stageE]
    decide
  · rw [c4_stageE, c4_stageF, c4_stageG]
    decide

/-- C4, amended: the idempotence guarantee fails in general (see the
counterexample), but a frame property does hold: re-running flag-then-clean
changes no cell that the freshly recomputed flag leaves unflagged and whose
value is present, in both variants. -/
theorem C4_thm (t : Table) (ic : List String) (col : String) (xs : Col)
    (fl : List Bool) (i : ℕ) (v : ℚ)
    (hnd : ic.Nodup)
    (hfl : (calculate_zscore_and_flag_outliers t).flag = some fl)
    (hget : getCol t col = some xs)
    (hlen : fl.length = xs.length)
    (hcell : xs.getD i none = some v)
    (hnofl : fl.getD i false = false) :
    (getColD (clean_and_impute (calculate_zscore_and_flag_outliers t) ic)
        col).getD i none = some v
    ∧ (getColD (DatasetHandler.clean_and_impute
        (DatasetHandler.calculate_zscore_and_flag_outliers t) ic) col).getD i
        none = some v := by
  have hilt : i < xs.length := getD_of_some hcell
  have hget' : getCol (calculate_zscore_and_flag_outliers t) col = some xs := by
    rw [getCol_calc]
    exact hget
  have himp : ∀ u : Table, ∀ ys : Col, getCol u col = some ys →
      ys.getD i none = some v → i < ys.length →
      (getColD (imputeStep ic u) col).getD i none = some v := by
    intro u ys hys hcell2 hilt2
    by_cases hmem : col ∈ ic
    · have h3 := getCol_updCols
        (fun zs => fillAll zs (median? (validVals zs))) ic u col ys hnd hmem hys
      unfold imputeStep getColD
      rw [h3]
      dsimp only
      rw [Option.getD_some, fillAll_getD ys _ i hilt2, hcell2]
      rfl
    · unfold imputeStep getColD
      rw [getCol_updCols_notMem _ _ _ _ hmem, hys, Option.getD_some]
      exact hcell2
  have hstep : ∀ med : Col → Option ℚ,
      (getColD (imputeStep ic
        (updCols (fun ys => replaceFlagged fl ys (med ys)) ic
          (calculate_zscore_and_flag_outliers t))) col).getD i none = some v := by
    intro med
    by_cases hmem : col ∈ ic
    · have h1 := getCol_updCols (fun ys => replaceFlagged fl ys (med ys))
        ic (calculate_zscore_and_flag_outliers t) col xs hnd hmem hget'
      have hcell2 : (replaceFlagged fl xs (med xs)).getD i none = some v := by
        rw [replaceFlagged_getD_unflagged fl xs _ i hlen hilt hnofl]
        exact hcell
      have hilt2 : i < (replaceFlagged fl xs (med xs)).length := by
        rw [length_replaceFlagged fl xs _ hlen]
        exact hilt
      exact himp _ _ h1 hcell2 hilt2
    · have h1 : getCol (updCols (fun ys => replaceFlagged fl ys (med ys)) ic
          (calculate_zscore_and_flag_outliers t)) col = some xs := by
        rw [getCol_updCols_notMem _ _ _ _ hmem]
        exact hget'
      exact himp _ _ h1 hcell hilt
  constructor
  · by_cases hany : fl.any id = true
    · rw [clean_module_eq_step _ ic fl hfl hany]
      exact hstep (fun ys => median? (validVals ys))
    · have hany2 : fl.any id = false := by
        cases h2 : fl.any id with
        | false => rfl
        | true => exact absurd h2 hany
      rw [clean_module_eq_skip _ ic (Or.inr ⟨fl, hfl, hany2⟩)]
      exact himp _ _ hget' hcell hilt
  · rw [← calc_variants_eq]
    by_cases hany : fl.any id = true
    · rw [clean_class_eq_step _ ic fl hfl hany]
      exact hstep (fun ys => median? (nonFlaggedVals fl ys))
    · have hany2 : fl.any id = false := by
        cases h2 : fl.any id with
        | false => rfl
        | true => exact absurd h2 hany
      rw [clean_class_eq_skip _ ic (Or.inr ⟨fl, hfl, hany2⟩)]
      exact himp _ _ hget' hcell hilt

/-- C4, witness: the frame property instantiated at a small three-row table
whose fresh flag marks nothing; the value 1 in row 0 is untouched by the
second pass of either variant. -/
theorem C4_witness :
    (getColD (clean_and_impute (calculate_zscore_and_flag_outliers
        { cols := [("GHI", [some 1, some 2, some 3])], flag := none }) ["GHI"])
        "GHI").getD 0 none = some 1
    ∧ (getColD (DatasetHandler.clean_and_impute
        (DatasetHandler.calculate_zscore_and_flag_outliers
          { cols := [("GHI", [some 1, some 2, some 3])], flag := none }) ["GHI"])
        "GHI").getD 0 none = some 1 :=
  C4_thm { cols := [("GHI", [some 1, some 2, some 3])], flag := none }
    ["GHI"] "GHI" [some 1, some 2, some 3] [false, false, false] 0 1
    (by decide)
    (by simp [calculate_zscore_and_flag_outliers, rowFlags, nrows, REQUIRED_COLS,
      hasCol, getColD, getCol, colFlags, colMean, colVar, validVals,
      List.range, List.range.loop] <;> norm_num)
    rfl (by decide) (by decide) (by decide)

lemma getD_replicate_self {α : Type} (n i : ℕ) (a : α) :
    (List.replicate n a).getD i a = a := by
  by_cases h : i < n
  · rw [getD_of_lt _ _ _ (by rw [List.length_replicate]; exact h),
      List.getElem_replicate]
  · exact List.getD_eq_default _ _
      (by rw [List.length_replicate]; exact Nat.le_of_not_lt h)

lemma getColD_length_of_hasCol (t : Table) (c : String)
    (hwf : ∀ p ∈ t.cols, p.2.length = nrows t) (h : hasCol t c = true) :
    (getColD t c).length = nrows t := by
  have hsome : (getCol t c).isSome := by
    rw [← hasCol_eq_isSome]
    exact h
  rcases Option.isSome_iff_exists.mp hsome with ⟨ys, hys⟩
  have hmem : ∃ p0 : String × Col, List.find? (fun p => p.1 == c) t.cols = some p0
      ∧ p0.2 = ys := by
    unfold getCol at hys
    rcases Option.map_eq_some'.mp hys with ⟨p0, hp0, hp2⟩
    exact ⟨p0, hp0, hp2⟩
  rcases hmem with ⟨p0, hp0, hp2⟩
  have hin : p0 ∈ t.cols := List.mem_of_find?_eq_some hp0
  have := hwf p0 hin
  unfold getColD
  rw [hys, Option.getD_some, ← hp2]
  exact this

/-- C5: a constant candidate column never contributes a true flag: both
flagging variants return `rowFlags`, and each row's flag equals the
disjunction over the OTHER present candidate columns, with no error (the
undefined z-scores of the zero-variance column compare as false). -/
theorem C5_thm (t : Table) (c : String) (xs : Col) (a : ℚ) (i : ℕ)
    (hwf : ∀ p ∈ t.cols, p.2.length = nrows t)
    (hget : getCol t c = some xs)
    (hconst : ∀ v ∈ validVals xs, v = a) :
    (DatasetHandler.calculate_zscore_and_flag_outliers t).flag = some (rowFlags t)
    ∧ (calculate_zscore_and_flag_outliers t).flag = some (rowFlags t)
    ∧ (rowFlags t).getD i false =
        ((REQUIRED_COLS.filter (fun c2 => hasCol t c2)).filter
          (fun c2 => !(c2 == c))).any
          (fun c2 => (colFlags (getColD t c2)).getD i false) := by
  have hxs : getColD t c = xs := by
    unfold getColD
    rw [hget, Option.getD_some]
  have hpc : (colFlags (getColD t c)).getD i false = false := by
    rw [hxs, colFlags_of_const xs a hconst]
    by_cases h : i < xs.length
    · rw [getD_of_lt _ _ _ (by rw [List.length_replicate]; exact h),
        List.getElem_replicate]
    · exact List.getD_eq_default _ _
        (by rw [List.length_replicate]; exact Nat.le_of_not_lt h)
  refine ⟨?_, ?_, ?_⟩
  · rfl
  · rw [calc_variants_eq]
    rfl
  by_cases hlt : i < nrows t
  · rw [rowFlags_getD_lt t i hlt]
    exact any_filter_ne _ _ c hpc
  · rw [rowFlags_getD_ge t i (Nat.le_of_not_lt hlt)]
    rw [eq_comm, List.any_eq_false]
    intro c2 hc2
    have hhas : hasCol t c2 = true :=
      List.of_mem_filter (List.mem_of_mem_filter hc2)
    have hlen2 : (getColD t c2).length = nrows t :=
      getColD_length_of_hasCol t c2 hwf hhas
    rw [List.getD_eq_default _ _
      (by rw [colFlags_length, hlen2]; exact Nat.le_of_not_lt hlt)]
    exact Bool.false_ne_true

/-- A table whose candidate column DNI is constant; the flag at row 10 is
driven by GHI alone. -/
def TW5 : Table :=
  { cols := [("GHI", LD0),
             ("DNI", [some 5, some 5, some 5, some 5, some 5, some 5, some 5,
                      some 5, some 5, some 5, some 5])],
    flag := none }

/-- C5, witness: the constant-column statement instantiated at `TW5` and
row 10. -/
theorem C5_witness :
    (DatasetHandler.calculate_zscore_and_flag_outliers TW5).flag =
        some (rowFlags TW5)
    ∧ (calculate_zscore_and_flag_outliers TW5).flag = some (rowFlags TW5)
    ∧ (rowFlags TW5).getD 10 false =
        ((REQUIRED_COLS.filter (fun c2 => hasCol TW5 c2)).filter
          (fun c2 => !(c2 == "DNI"))).any
          (fun c2 => (colFlags (getColD TW5 c2)).getD 10 false) :=
  C5_thm TW5 "DNI"
    [some 5, some 5, some 5, some 5, some 5, some 5, some 5, some 5, some 5,
     some 5, some 5] 5 10
    (by decide) rfl (by decide)

/-- C6: both flagging variants use only the candidate columns actually
present in the table.  The flag column always has one entry per row, the
two variants agree, and a row can only be flagged on account of a present
candidate column's own z-scores — in particular, with no candidate column
present no row is ever flagged, and nothing fails on absent columns. -/
theorem C6_thm (t : Table) (i : ℕ) (fl : List Bool)
    (hfl : (calculate_zscore_and_flag_outliers t).flag = some fl)
    (hi : fl.getD i false = true) :
    fl.length = nrows t
    ∧ (DatasetHandler.calculate_zscore_and_flag_outliers t).flag = some fl
    ∧ (REQUIRED_COLS.filter (fun c => hasCol t c)).any
        (fun c => (colFlags (getColD t c)).getD i false) = true := by
  have hfl2 : (DatasetHandler.calculate_zscore_and_flag_outliers t).flag = some fl := by
    rw [← calc_variants_eq]
    exact hfl
  have hfleq : fl = rowFlags t := by
    have : some (rowFlags t) = some fl := hfl2
    exact (Option.some_injective _ this).symm
  subst hfleq
  refine ⟨rowFlags_length t, hfl2, ?_⟩
  by_cases hlt : i < nrows t
  · rw [← rowFlags_getD_lt t i hlt]
    exact hi
  · rw [rowFlags_getD_ge t i (Nat.le_of_not_lt hlt)] at hi
    exact absurd hi Bool.false_ne_true

/-- C6, witness: instantiated at the 11-row table `TD0`, whose row 10 is
flagged; the flag has one entry per row and row 10's flag is accounted for
by the present candidate column GHI. -/
theorem C6_witness :
    FD0.length = nrows TD0
    ∧ (DatasetHandler.calculate_zscore_and_flag_outliers TD0).flag = some FD0
    ∧ (REQUIRED_COLS.filter (fun c => hasCol TD0 c)).any
        (fun c => (colFlags (getColD TD0 c)).getD 10 false) = true :=
  C6_thm TD0 10 FD0 (by rw [c4_stageA]) (by decide)

/-- An environment whose directory exists but whose write always fails with
a permission error. -/
def FS7 : FS :=
  { pathExists := fun _ => true,
    makedirs := fun _ => Except.ok (),
    writeCsv := fun _ => Except.error "Permission denied" }

/-- An environment in which everything succeeds. -/
def FS8 : FS :=
  { pathExists := fun _ => true,
    makedirs := fun _ => Except.ok (),
    writeCsv := fun _ => Except.ok () }

/-- A small cleaned table carrying the transient flag column. -/
def T7 : Table := { cols := [("GHI", [some 1])], flag := some [false] }

/-- C7, counterexample: when the write fails, `save_cleaned_data` returns
normally (no exception reaches the caller) with nothing written — the error
is only printed, so it is not surfaced to the caller. -/
theorem C7_counterexample :
    (save_cleaned_data FS7 T7 "out/a.csv").outcome = SaveOutcome.returned
    ∧ (save_cleaned_data FS7 T7 "out/a.csv").written = none
    ∧ (save_cleaned_data FS7 T7 "out/a.csv").printed =
        ["!!! ERROR: Could not save file. Permission denied"] :=
  ⟨rfl, rfl, rfl⟩

/-- C7, amended: a failing write is caught by the `except` handler: the
function returns normally to its caller, prints the error message with the
underlying cause, and discards the result (nothing is written); the error
is not propagated to the caller. -/
theorem C7_thm (fs : FS) (df : Table) (path : String) (e : String)
    (hex : fs.pathExists (dirname path) = true)
    (hw : fs.writeCsv path = Except.error e) :
    save_cleaned_data fs df path =
      { outcome := SaveOutcome.returned,
        printed := ["!!! ERROR: Could not save file. " ++ e],
        written := none } := by
  unfold save_cleaned_data saveCore
  simp only [hex, if_true]
  unfold saveTry
  simp only [hw]

/-- C7, witness: the amended statement instantiated in the
permission-denied environment. -/
theorem C7_witness :
    save_cleaned_data FS7 T7 "out/a.csv" =
      { outcome := SaveOutcome.returned,
        printed := ["!!! ERROR: Could not save file. " ++ "Permission denied"],
        written := none } :=
  C7_thm FS7 T7 "out/a.csv" "Permission denied" rfl rfl

lemma saveCore_ok (fs : FS) (df : Table) (path : String)
    (hex : fs.pathExists (dirname path) = true)
    (hw : fs.writeCsv path = Except.ok ()) :
    saveCore fs df path =
      { outcome := SaveOutcome.returned,
        printed := ["Cleaned Data Saved successfully to: " ++ path],
        written := some (path, dropFlag df) } := by
  have hbranch : (if df.flag.isSome then dropFlag df else df) = dropFlag df := by
    cases df with
    | mk cols flag => cases flag <;> rfl
  unfold saveCore
  simp only [hex, if_true]
  unfold saveTry
  simp only [hw, hbranch]

/-- C8: a successful save writes exactly the in-memory cleaned table with
the transient `Outliers_Flag` column removed: the persisted table has no
flag column and its data columns equal the in-memory ones, so reading the
written file back yields the cleaned values (round-trip fidelity at the
table level). -/
theorem C8_thm (fs : FS) (df : Table) (path : String)
    (hex : fs.pathExists (dirname path) = true)
    (hw : fs.writeCsv path = Except.ok ()) :
    (save_cleaned_data fs df path).written = some (path, dropFlag df)
    ∧ (dropFlag df).flag = none
    ∧ (dropFlag df).cols = df.cols
    ∧ (save_cleaned_data fs df path).outcome = SaveOutcome.returned := by
  unfold save_cleaned_data
  rw [saveCore_ok fs df path hex hw]
  exact ⟨rfl, rfl, rfl, rfl⟩

/-- C8, witness: the round-trip statement instantiated in the all-ok
environment at the flagged table `T7`. -/
theorem C8_witness :
    (save_cleaned_data FS8 T7 "out/a.csv").written =
        some ("out/a.csv", dropFlag T7)
    ∧ (dropFlag T7).flag = none
    ∧ (dropFlag T7).cols = T7.cols
    ∧ (save_cleaned_data FS8 T7 "out/a.csv").outcome = SaveOutcome.returned :=
  C8_thm FS8 T7 "out/a.csv" rfl rfl

/-- C9: `DatasetHandler.save_cleaned_data` never reassigns `self.df`: after
a successful save the handler state still holds the original table, flag
column and all, while the flag was dropped only on the copy that was
written. -/
theorem C9_thm (fs : FS) (df : Table) (path : String)
    (hex : fs.pathExists (dirname path) = true)
    (hw : fs.writeCsv path = Except.ok ()) :
    (DatasetHandler.save_cleaned_data fs (some df) path).2 = some df
    ∧ (DatasetHandler.save_cleaned_data fs (some df) path).1.written =
        some (path, dropFlag df) := by
  refine ⟨rfl, ?_⟩
  show (saveCore fs df path).written = some (path, dropFlag df)
  rw [saveCore_ok fs df path hex hw]

/-- C9, witness: after a successful save of the flagged table `T7`, the
handler state is unchanged (flag included) while the written copy lost the
flag column. -/
theorem C9_witness :
    (DatasetHandler.save_cleaned_data FS8 (some T7) "out/a.csv").2 = some T7
    ∧ (DatasetHandler.save_cleaned_data FS8 (some T7) "out/a.csv").1.written =
        some ("out/a.csv", dropFlag T7) :=
  C9_thm FS8 T7 "out/a.csv" rfl rfl

lemma rfindSlashIdx_none (cs : List Char) (h : ∀ c ∈ cs, ¬ c = '/') :
    rfindSlashIdx cs = none := by
  induction cs with
  | nil => rfl
  | cons c rest ih =>
      unfold rfindSlashIdx
      rw [ih (fun x hx => h x (List.mem_cons_of_mem c hx))]
      have : (c == '/') = false :=
        beq_eq_false_iff_ne.mpr (h c (List.mem_cons_self c rest))
      rw [this]
      rfl

lemma dirname_no_slash (p : String) (h : ∀ c ∈ p.toList, ¬ c = '/') :
    dirname p = "" := by
  unfold dirname
  simp only [rfindSlashIdx_none p.toList h]

/-- An environment in which no path exists and directory creation fails, as
`os.makedirs('')` does. -/
def FS10 : FS :=
  { pathExists := fun _ => false,
    makedirs := fun _ => Except.error "No such file or directory:",
    writeCsv := fun _ => Except.ok () }

/-- C10: for an output path with no directory component, the directory name
is the empty string, which does not exist, so the `os.makedirs` call —
sitting OUTSIDE the `try` block — raises, the exception propagates to the
caller uncaught, nothing is printed and no write is attempted. -/
theorem C10_thm (fs : FS) (df : Table) (path : String) (e : String)
    (hnoslash : ∀ c ∈ path.toList, ¬ c = '/')
    (hex : fs.pathExists "" = false)
    (hmk : fs.makedirs "" = Except.error e) :
    save_cleaned_data fs df path =
      { outcome := SaveOutcome.raised e, printed := [], written := none } := by
  have hd : dirname path = "" := dirname_no_slash path hnoslash
  unfold save_cleaned_data saveCore
  simp only [hd, hex, Bool.false_eq_true, if_false, hmk]

/-- C10, witness: saving to the bare file name `cleaned.csv` raises before
any write. -/
theorem C10_witness :
    save_cleaned_data FS10 T7 "cleaned.csv" =
      { outcome := SaveOutcome.raised "No such file or directory:",
        printed := [], written := none } :=
  C10_thm FS10 T7 "cleaned.csv" "No such file or directory:"
    (by decide) rfl rfl
